import Mathlib

/-!
# MOCA patient portal — shallow embedding and verification

This file embeds the order lifecycle, cart, checkout and order-view logic of
the MOCA patient portal (a Next.js prototype) as plain Lean definitions, and
proves the behavioural properties stated in the specification.

Modelling conventions:
- Monetary amounts (JS `number` used for prices and totals) are modelled as
  rationals `ℚ`; all amounts involved are exactly representable.
- `createdAt` (an ISO timestamp string, compared via `new Date(_).getTime()`)
  is modelled directly as the epoch-milliseconds integer it encodes.
- `localStorage` is modelled as a `Store` record with one field per key in
  active use; an absent key is `none`.
- `Math.random()`-derived values are passed in as an explicit `randomDigits`
  argument, constrained by hypotheses to the range the source expression
  `Math.floor(10000000 + Math.random() * 90000000)` can produce.
- `Array.prototype.sort` (stable since ES2019) with the descending timestamp
  comparator is modelled by a stable descending insertion sort.
-/

namespace Moca

/-- Prescription status union type `'active' | 'expired' | 'used'`
(src/app/dashboard/page.tsx). -/
inductive PrescriptionStatus where
  | active
  | expired
  | used
deriving DecidableEq

/-- `Prescription` record (src/app/dashboard/page.tsx interface Prescription). -/
structure Prescription where
  id : String
  name : String
  strength : String
  quantity : Nat
  repeats : Nat
  prescribedDate : String
  expiryDate : String
  status : PrescriptionStatus
  interval : String
  price : ℚ
deriving DecidableEq

/-- `CartItem` record (src/app/dashboard/page.tsx interface CartItem). -/
structure CartItem where
  prescription : Prescription
  quantitySelected : Nat
deriving DecidableEq

/-- Order status strings `"awaiting_payment" | "processing" | "shipped"`
(src/app/admin/dashboard/page.tsx interface Order, field `status`). -/
inductive OrderStatus where
  | awaiting_payment
  | processing
  | shipped
deriving DecidableEq

/-- `Order` record as created by checkout (src/app/checkout/page.tsx,
`handlePayment`) and consumed by the dashboards. `createdAt` is the epoch
timestamp encoded by the stored ISO string. -/
structure Order where
  id : String
  patientEmail : String
  items : List CartItem
  subtotal : ℚ
  shippingFee : ℚ
  total : ℚ
  status : OrderStatus
  createdAt : Int
  paymentMethod : String
  shippingAddress : String
  trackingNumber : Option String
deriving DecidableEq

/-- The browser `localStorage` keys the order flow reads and writes. -/
structure Store where
  allOrders : Option (List Order)
  cartItems : Option (List CartItem)
  currentOrder : Option Order
deriving DecidableEq

/-- Result signalled to the user by `addToCart` via `alert`
(src/app/dashboard/page.tsx lines 161-188). -/
inductive AddToCartResult where
  | rejected
  | updated
  | added
deriving DecidableEq

/-- `addToCart` (src/app/dashboard/page.tsx lines 161-188): rejects
prescriptions that are not active or have no repeats; merges by prescription
id, adding the prescription's full quantity; otherwise appends a new line
defaulting to the full quantity. -/
def addToCart (prescription : Prescription) (cart : List CartItem) :
    List CartItem × AddToCartResult :=
  if prescription.status ≠ PrescriptionStatus.active ∨ prescription.repeats = 0 then
    (cart, .rejected)
  else
    match cart.find? (fun item => item.prescription.id == prescription.id) with
    | some _ =>
        (cart.map (fun item =>
          if item.prescription.id = prescription.id then
            { item with quantitySelected := item.quantitySelected + prescription.quantity }
          else item), .updated)
    | none =>
        (cart ++ [{ prescription := prescription, quantitySelected := prescription.quantity }],
          .added)

/-- `cartTotal` (src/app/dashboard/page.tsx lines 193-195): reduce over the
cart of `price * quantitySelected` starting from 0. -/
def cartTotal (cart : List CartItem) : ℚ :=
  cart.foldl (fun total item => total + item.prescription.price * (item.quantitySelected : ℚ)) 0

/-- Checkout page `subtotal` (src/app/checkout/page.tsx lines 96-98): same
reduce over the loaded cart items. -/
def cartSubtotal (cartItems : List CartItem) : ℚ :=
  cartItems.foldl
    (fun total item => total + item.prescription.price * (item.quantitySelected : ℚ)) 0

/-- The flat shipping fee constant (src/app/checkout/page.tsx line 100). -/
def shippingFee : ℚ := 33.00

/-- The order object built inside `handlePayment`
(src/app/checkout/page.tsx lines 130-149). `now` is the current epoch
millisecond value (`Date.now()` for the id, the same instant's ISO string for
`createdAt`). -/
def checkoutOrder (now : Int) (userEmail : String) (cartItems : List CartItem) : Order :=
  { id := "MOCA-" ++ toString now
    patientEmail := userEmail
    items := cartItems
    subtotal := cartSubtotal cartItems
    shippingFee := shippingFee
    total := cartSubtotal cartItems + shippingFee
    status := .awaiting_payment
    createdAt := now
    paymentMethod := "Power Board"
    shippingAddress := "Mock Address"
    trackingNumber := none }

/-- `handlePayment` (src/app/checkout/page.tsx lines 123-172): builds the
order, appends it to `allOrders` (starting from `[]` when the key is absent),
stores it under `currentOrder`, and removes the `cartItems` key. `userEmail`
is the value read from the store's `userEmail` key. -/
def handlePayment (now : Int) (userEmail : String) (cartItems : List CartItem)
    (s : Store) : Store :=
  let order := checkoutOrder now userEmail cartItems
  let orders := s.allOrders.getD []
  { allOrders := some (orders ++ [order])
    cartItems := none
    currentOrder := some order }

/-- `generateTrackingNumber` (src/app/admin/dashboard/page.tsx lines 161-164):
`ST` followed by the decimal digits of
`Math.floor(10000000 + Math.random() * 90000000)`, passed in here as
`randomDigits`. -/
def generateTrackingNumber (randomDigits : Nat) : String :=
  "ST" ++ toString randomDigits

/-- `markAsProcessing` core update (src/app/admin/dashboard/page.tsx lines
175-184): map over the order collection setting the matching order's status
to `processing`. -/
def markAsProcessing (orderId : String) (orders : List Order) : List Order :=
  orders.map (fun order =>
    if order.id = orderId then { order with status := .processing } else order)

/-- `markAsShipped` core update (src/app/admin/dashboard/page.tsx lines
211-223): map over the order collection setting the matching order's status
to `shipped` and its tracking number, both in the same update. -/
def markAsShipped (orderId : String) (trackingNumber : String) (orders : List Order) :
    List Order :=
  orders.map (fun order =>
    if order.id = orderId then
      { order with status := .shipped, trackingNumber := some trackingNumber }
    else order)

/-- `markAsProcessing` including its store interaction
(src/app/admin/dashboard/page.tsx lines 170-200): an absent `allOrders` key is
an early return with no alert (`false`); otherwise the updated collection is
written back and the success alert is shown (`true`). -/
def markAsProcessingStore (orderId : String) (s : Store) : Store × Bool :=
  match s.allOrders with
  | none => (s, false)
  | some orders => ({ s with allOrders := some (markAsProcessing orderId orders) }, true)

/-- The action button the admin dashboard renders for an order
(src/app/admin/dashboard/page.tsx `getOrderActions` lines 244-275):
`awaiting_payment` exposes "Mark as Processing", `processing` exposes
"Mark as Shipped", `shipped` renders a read-only tracking display. -/
inductive AdminAction where
  | toProcessing (orderId : String)
  | toShipped (orderId : String)
deriving DecidableEq

/-- `getOrderActions` (src/app/admin/dashboard/page.tsx lines 244-275),
as the transition call the rendered button would invoke, if any. -/
def getOrderActions (order : Order) : Option AdminAction :=
  match order.status with
  | .awaiting_payment => some (.toProcessing order.id)
  | .processing => some (.toShipped order.id)
  | .shipped => none

/-- Run the transition a clicked admin button invokes on the collection. -/
def applyAction (randomDigits : Nat) (a : AdminAction) (orders : List Order) : List Order :=
  match a with
  | .toProcessing orderId => markAsProcessing orderId orders
  | .toShipped orderId =>
      markAsShipped orderId (generateTrackingNumber randomDigits) orders

/-- One admin interaction with the dashboard: clicking the action button that
`getOrderActions` renders for some displayed order. This is the only call
site of `markAsProcessing` / `markAsShipped` in the source. -/
inductive AdminStep : List Order → List Order → Prop where
  | click (orders : List Order) (order : Order) (a : AdminAction) (randomDigits : Nat)
      (ho : order ∈ orders) (ha : getOrderActions order = some a) :
      AdminStep orders (applyAction randomDigits a orders)

/-- Position of a status in the forward progression
`awaiting_payment → processing → shipped`. -/
def statusRank : OrderStatus → Nat
  | .awaiting_payment => 0
  | .processing => 1
  | .shipped => 2

/-- Stable descending insertion by `createdAt`: an incoming element passes an
element already in place only when it is strictly newer, so equal timestamps
keep their relative order, exactly as a stable sort with the comparator
`(a, b) => getTime(b) - getTime(a)` behaves. -/
def insertByDateDesc (o : Order) : List Order → List Order
  | [] => [o]
  | x :: xs =>
      if x.createdAt ≤ o.createdAt then o :: x :: xs else x :: insertByDateDesc o xs

/-- Stable sort of orders by creation timestamp, newest first, modelling
`sort((a, b) => new Date(b.createdAt).getTime() - new Date(a.createdAt).getTime())`. -/
def sortByDateDesc : List Order → List Order
  | [] => []
  | x :: xs => insertByDateDesc x (sortByDateDesc xs)

/-- `loadPatientOrders` (src/app/dashboard/page.tsx lines 377-396): filter
the order collection by exact owner-email match, then sort newest first. -/
def loadPatientOrders (userEmail : String) (orders : List Order) : List Order :=
  sortByDateDesc (orders.filter (fun order => order.patientEmail == userEmail))

/-- The three hardcoded prescriptions (src/app/dashboard/page.tsx
`mockPrescriptions`, lines 97-134), first entry. -/
def rx001 : Prescription :=
  { id := "rx-001"
    name := "Paracetamol"
    strength := "500mg"
    quantity := 20
    repeats := 3
    prescribedDate := "2024-01-15"
    expiryDate := "2024-07-15"
    status := .active
    interval := "As needed, up to 4 times daily"
    price := 12.50 }

/-- Second mock prescription. -/
def rx002 : Prescription :=
  { id := "rx-002"
    name := "Ibuprofen"
    strength := "200mg"
    quantity := 30
    repeats := 2
    prescribedDate := "2024-02-01"
    expiryDate := "2024-08-01"
    status := .active
    interval := "Twice daily with food"
    price := 15.80 }

/-- Third mock prescription: no repeats left and already used. -/
def rx003 : Prescription :=
  { id := "rx-003"
    name := "Vitamin D"
    strength := "1000IU"
    quantity := 60
    repeats := 0
    prescribedDate := "2023-12-01"
    expiryDate := "2024-06-01"
    status := .used
    interval := "Once daily"
    price := 8.90 }

/-- `mockPrescriptions` (src/app/dashboard/page.tsx lines 97-134). -/
def mockPrescriptions : List Prescription := [rx001, rx002, rx003]

/-! ### Decimal digit helpers for the tracking-number format -/

lemma digitChar_isDigit {m : Nat} (h : m < 10) : (Nat.digitChar m).isDigit = true := by
  interval_cases m <;> decide

lemma toDigitsCore_length_eq :
    ∀ (f n : Nat) (ds : List Char), n < f →
      (Nat.toDigitsCore 10 f n ds).length = ds.length + Nat.log 10 n + 1 := by
  intro f
  induction f with
  | zero => intro n ds h; exact absurd h (Nat.not_lt_zero n)
  | succ f ih =>
    intro n ds h
    by_cases h10 : n / 10 = 0
    · have hn : n < 10 := by omega
      simp only [Nat.toDigitsCore, h10, if_true, List.length_cons]
      have : Nat.log 10 n = 0 := Nat.log_eq_zero_iff.mpr (Or.inl hn)
      omega
    · have hn : 10 ≤ n := by omega
      have hdiv : n / 10 < f := by
        have h1 : n / 10 < n := Nat.div_lt_self (by omega) (by norm_num)
        omega
      simp only [Nat.toDigitsCore, h10, if_false]
      rw [ih (n / 10) (Nat.digitChar (n % 10) :: ds) hdiv]
      have hlog : Nat.log 10 (n / 10) = Nat.log 10 n - 1 := Nat.log_div_base 10 n
      have hpos : 0 < Nat.log 10 n := Nat.log_pos (by norm_num) hn
      simp only [List.length_cons]
      omega

lemma repr_length_eq (n : Nat) : (Nat.repr n).length = Nat.log 10 n + 1 := by
  have h := toDigitsCore_length_eq (n + 1) n [] (Nat.lt_succ_self n)
  simpa [Nat.repr, Nat.toDigits, String.length, List.asString] using h

lemma toDigitsCore_isDigit :
    ∀ (f n : Nat) (ds : List Char), (∀ c ∈ ds, c.isDigit = true) →
      ∀ c ∈ Nat.toDigitsCore 10 f n ds, c.isDigit = true := by
  intro f
  induction f with
  | zero => intro n ds hds; simpa [Nat.toDigitsCore] using hds
  | succ f ih =>
    intro n ds hds
    have hd : ∀ c ∈ Nat.digitChar (n % 10) :: ds, c.isDigit = true := by
      intro c hc
      rcases List.mem_cons.mp hc with hc | hc
      · subst hc; exact digitChar_isDigit (Nat.mod_lt n (by norm_num))
      · exact hds c hc
    by_cases h10 : n / 10 = 0
    · simpa [Nat.toDigitsCore, h10] using hd
    · simp only [Nat.toDigitsCore, h10, if_false]
      exact ih (n / 10) (Nat.digitChar (n % 10) :: ds) hd

lemma repr_isDigit (n : Nat) : ∀ c ∈ (Nat.repr n).data, c.isDigit = true := by
  intro c hc
  have h := toDigitsCore_isDigit (n + 1) n [] (by simp)
  apply h
  simpa [Nat.repr, Nat.toDigits, List.asString] using hc

lemma string_data_append (a b : String) : (a ++ b).data = a.data ++ b.data := by
  cases a with
  | mk l1 => cases b with
    | mk l2 => rfl

lemma log_eq_seven {r : Nat} (h1 : 10000000 ≤ r) (h2 : r ≤ 99999999) :
    Nat.log 10 r = 7 :=
  Nat.log_eq_of_pow_le_of_lt_pow (by norm_num; omega) (by norm_num; omega)

/-- The tracking number is `ST` followed by exactly 8 decimal digit
characters whenever the random value lies in `[10000000, 99999999]`. -/
lemma generateTrackingNumber_format (r : Nat)
    (h1 : 10000000 ≤ r) (h2 : r ≤ 99999999) :
    ∃ ds : List Char, (generateTrackingNumber r).data = 'S' :: 'T' :: ds ∧
      ds.length = 8 ∧ ∀ c ∈ ds, c.isDigit = true := by
  refine ⟨(Nat.repr r).data, ?_, ?_, repr_isDigit r⟩
  · show ("ST" ++ toString r).data = _
    rw [string_data_append]
    rfl
  · show (Nat.repr r).data.length = 8
    have h := repr_length_eq r
    rw [log_eq_seven h1 h2] at h
    exact h

/-! ### Transition helper lemmas -/

lemma markAsProcessing_length (orderId : String) (os : List Order) :
    (markAsProcessing orderId os).length = os.length :=
  List.length_map os _

lemma markAsShipped_length (orderId tn : String) (os : List Order) :
    (markAsShipped orderId tn os).length = os.length :=
  List.length_map os _

lemma markAsProcessing_get (orderId : String) (os : List Order) (i : Nat)
    (h1 : i < os.length) (h2 : i < (markAsProcessing orderId os).length) :
    (markAsProcessing orderId os).get ⟨i, h2⟩ =
      if (os.get ⟨i, h1⟩).id = orderId then
        { os.get ⟨i, h1⟩ with status := .processing }
      else os.get ⟨i, h1⟩ := by
  simp [markAsProcessing, List.get_eq_getElem, List.getElem_map]

lemma markAsShipped_get (orderId tn : String) (os : List Order) (i : Nat)
    (h1 : i < os.length) (h2 : i < (markAsShipped orderId tn os).length) :
    (markAsShipped orderId tn os).get ⟨i, h2⟩ =
      if (os.get ⟨i, h1⟩).id = orderId then
        { os.get ⟨i, h1⟩ with status := .shipped, trackingNumber := some tn }
      else os.get ⟨i, h1⟩ := by
  simp [markAsShipped, List.get_eq_getElem, List.getElem_map]

lemma markAsProcessing_map_id (orderId : String) (os : List Order) :
    (markAsProcessing orderId os).map Order.id = os.map Order.id := by
  unfold markAsProcessing
  rw [List.map_map]
  apply List.map_congr_left
  intro o _
  by_cases h : o.id = orderId <;> simp [Function.comp, h]

lemma markAsShipped_map_id (orderId tn : String) (os : List Order) :
    (markAsShipped orderId tn os).map Order.id = os.map Order.id := by
  unfold markAsShipped
  rw [List.map_map]
  apply List.map_congr_left
  intro o _
  by_cases h : o.id = orderId <;> simp [Function.comp, h]

lemma markAsProcessing_noop (orderId : String) (os : List Order)
    (h : ∀ o ∈ os, o.id ≠ orderId) : markAsProcessing orderId os = os := by
  unfold markAsProcessing
  have heq : os.map (fun order =>
      if order.id = orderId then { order with status := OrderStatus.processing }
      else order) = os.map id := by
    apply List.map_congr_left
    intro o ho
    simp [h o ho]
  rw [heq, List.map_id]

/-- In a collection with pairwise-distinct order ids, an element whose id
matches that of a member `o` is `o` itself. -/
lemma get_eq_of_mem_of_id_eq {os : List Order} (hnd : (os.map Order.id).Nodup)
    {o : Order} (ho : o ∈ os) (i : Nat) (h : i < os.length)
    (hid : (os.get ⟨i, h⟩).id = o.id) : os.get ⟨i, h⟩ = o := by
  induction os generalizing i with
  | nil => simp at ho
  | cons x xs ih =>
    simp only [List.map_cons, List.nodup_cons] at hnd
    rcases List.mem_cons.mp ho with rfl | ho2
    · cases i with
      | zero => rfl
      | succ j =>
        exfalso
        apply hnd.1
        rw [← hid]
        have hj : j < xs.length := by simpa using h
        have hget : (o :: xs).get ⟨j + 1, h⟩ = xs.get ⟨j, hj⟩ := rfl
        rw [hget]
        exact List.mem_map_of_mem Order.id (xs.get_mem j hj)
    · cases i with
      | zero =>
        exfalso
        apply hnd.1
        simp only [List.get] at hid
        rw [hid]
        exact List.mem_map_of_mem Order.id ho2
      | succ j =>
        exact ih hnd.2 ho2 j (by simpa using h) (by simpa using hid)

lemma getOrderActions_cases {o : Order} {a : AdminAction}
    (h : getOrderActions o = some a) :
    (o.status = OrderStatus.awaiting_payment ∧ a = AdminAction.toProcessing o.id) ∨
    (o.status = OrderStatus.processing ∧ a = AdminAction.toShipped o.id) := by
  unfold getOrderActions at h
  cases hs : o.status <;> rw [hs] at h <;> simp_all

lemma adminStep_map_id {os os' : List Order} (h : AdminStep os os') :
    os'.map Order.id = os.map Order.id := by
  rcases h with ⟨o, a, r, ho, ha⟩
  cases a with
  | toProcessing oid => exact markAsProcessing_map_id oid os
  | toShipped oid => exact markAsShipped_map_id oid (generateTrackingNumber r) os

lemma adminStep_length {os os' : List Order} (h : AdminStep os os') :
    os'.length = os.length := by
  have hmap := adminStep_map_id h
  have h1 : (os'.map Order.id).length = (os.map Order.id).length := by rw [hmap]
  simpa using h1

lemma adminStep_rank {os os' : List Order} (hnd : (os.map Order.id).Nodup)
    (h : AdminStep os os') (i : Nat) (h1 : i < os.length) (h2 : i < os'.length) :
    statusRank (os.get ⟨i, h1⟩).status ≤ statusRank (os'.get ⟨i, h2⟩).status ∧
    statusRank (os'.get ⟨i, h2⟩).status ≤ statusRank (os.get ⟨i, h1⟩).status + 1 := by
  rcases h with ⟨o, a, r, ho, ha⟩
  rcases getOrderActions_cases ha with ⟨hst, rfl⟩ | ⟨hst, rfl⟩
  · have h2p : i < (markAsProcessing o.id os).length := h2
    show statusRank (os.get ⟨i, h1⟩).status ≤
        statusRank ((markAsProcessing o.id os).get ⟨i, h2p⟩).status ∧
      statusRank ((markAsProcessing o.id os).get ⟨i, h2p⟩).status ≤
        statusRank (os.get ⟨i, h1⟩).status + 1
    rw [markAsProcessing_get o.id os i h1 h2p]
    by_cases hid : (os.get ⟨i, h1⟩).id = o.id
    · have heq : os.get ⟨i, h1⟩ = o := get_eq_of_mem_of_id_eq hnd ho i h1 hid
      rw [if_pos hid, heq, hst]
      exact ⟨by simp [statusRank], by simp [statusRank]⟩
    · rw [if_neg hid]
      exact ⟨le_refl _, Nat.le_succ _⟩
  · have h2p : i < (markAsShipped o.id (generateTrackingNumber r) os).length := h2
    show statusRank (os.get ⟨i, h1⟩).status ≤
        statusRank ((markAsShipped o.id (generateTrackingNumber r) os).get ⟨i, h2p⟩).status ∧
      statusRank ((markAsShipped o.id (generateTrackingNumber r) os).get ⟨i, h2p⟩).status ≤
        statusRank (os.get ⟨i, h1⟩).status + 1
    rw [markAsShipped_get o.id (generateTrackingNumber r) os i h1 h2p]
    by_cases hid : (os.get ⟨i, h1⟩).id = o.id
    · have heq : os.get ⟨i, h1⟩ = o := get_eq_of_mem_of_id_eq hnd ho i h1 hid
      rw [if_pos hid, heq, hst]
      exact ⟨by simp [statusRank], by simp [statusRank]⟩
    · rw [if_neg hid]
      exact ⟨le_refl _, Nat.le_succ _⟩

lemma adminReachable_rank {os os' : List Order} (hnd : (os.map Order.id).Nodup)
    (h : Relation.ReflTransGen AdminStep os os') :
    os'.map Order.id = os.map Order.id ∧
    ∀ (i : Nat) (h1 : i < os.length) (h2 : i < os'.length),
      statusRank (os.get ⟨i, h1⟩).status ≤ statusRank (os'.get ⟨i, h2⟩).status := by
  induction h with
  | refl => exact ⟨rfl, fun i h1 h2 => le_refl _⟩
  | @tail mid last hmid hstep ih =>
    obtain ⟨hids, hrank⟩ := ih
    have hndmid : (mid.map Order.id).Nodup := by rw [hids]; exact hnd
    have hlast : last.map Order.id = os.map Order.id := by
      rw [adminStep_map_id hstep, hids]
    refine ⟨hlast, fun i h1 h2 => ?_⟩
    have hmidlen : i < mid.length := by
      have : (mid.map Order.id).length = (os.map Order.id).length := by rw [hids]
      simp only [List.length_map] at this
      omega
    exact le_trans (hrank i h1 hmidlen)
      (adminStep_rank hndmid hstep i hmidlen h2).1

/-! ### Sorting helper lemmas for the patient order view -/

lemma insertByDateDesc_perm (o : Order) (l : List Order) :
    List.Perm (insertByDateDesc o l) (o :: l) := by
  induction l with
  | nil => rfl
  | cons x xs ih =>
    simp only [insertByDateDesc]
    by_cases h : x.createdAt ≤ o.createdAt
    · simp [h]
    · simp only [h, if_false]
      exact (ih.cons x).trans (List.Perm.swap o x xs)

lemma sortByDateDesc_perm (l : List Order) :
    List.Perm (sortByDateDesc l) l := by
  induction l with
  | nil => rfl
  | cons x xs ih =>
    simp only [sortByDateDesc]
    exact (insertByDateDesc_perm x (sortByDateDesc xs)).trans (ih.cons x)

lemma insertByDateDesc_pairwise (o : Order) (l : List Order)
    (h : l.Pairwise (fun a b => b.createdAt ≤ a.createdAt)) :
    (insertByDateDesc o l).Pairwise (fun a b => b.createdAt ≤ a.createdAt) := by
  induction l with
  | nil => simp [insertByDateDesc]
  | cons x xs ih =>
    rcases List.pairwise_cons.mp h with ⟨hx, hxs⟩
    simp only [insertByDateDesc]
    by_cases hc : x.createdAt ≤ o.createdAt
    · rw [if_pos hc]
      refine List.pairwise_cons.mpr ⟨?_, h⟩
      intro b hb
      rcases List.mem_cons.mp hb with rfl | hb2
      · exact hc
      · exact le_trans (hx b hb2) hc
    · rw [if_neg hc]
      refine List.pairwise_cons.mpr ⟨?_, ih hxs⟩
      intro b hb
      have hmem := (insertByDateDesc_perm o xs).mem_iff.mp hb
      rcases List.mem_cons.mp hmem with rfl | hb2
      · omega
      · exact hx b hb2

lemma sortByDateDesc_pairwise (l : List Order) :
    (sortByDateDesc l).Pairwise (fun a b => b.createdAt ≤ a.createdAt) := by
  induction l with
  | nil => simp [sortByDateDesc]
  | cons x xs ih =>
    simp only [sortByDateDesc]
    exact insertByDateDesc_pairwise x (sortByDateDesc xs) ih

lemma insertByDateDesc_filter_time (o : Order) (l : List Order) (t : Int) :
    (insertByDateDesc o l).filter (fun x => x.createdAt == t) =
      if o.createdAt = t then o :: l.filter (fun x => x.createdAt == t)
      else l.filter (fun x => x.createdAt == t) := by
  induction l with
  | nil => simp [insertByDateDesc, List.filter_cons, beq_iff_eq]
  | cons x xs ih =>
    simp only [insertByDateDesc]
    by_cases hc : x.createdAt ≤ o.createdAt
    · rw [if_pos hc]
      simp [List.filter_cons, beq_iff_eq]
    · rw [if_neg hc]
      by_cases h : o.createdAt = t
      · have hx : ¬ (x.createdAt = t) := by omega
        simp [List.filter_cons, beq_iff_eq, h, hx, ih]
      · simp [List.filter_cons, beq_iff_eq, h, ih]

lemma sortByDateDesc_filter_time (l : List Order) (t : Int) :
    (sortByDateDesc l).filter (fun x => x.createdAt == t) =
      l.filter (fun x => x.createdAt == t) := by
  induction l with
  | nil => rfl
  | cons x xs ih =>
    simp only [sortByDateDesc, insertByDateDesc_filter_time, List.filter_cons, ih]
    by_cases h : x.createdAt = t <;> simp [h]

/-! ### Cart helper lemmas -/

lemma addToCart_guard_false {p : Prescription}
    (hact : p.status = PrescriptionStatus.active) (hrep : p.repeats ≠ 0) :
    ¬ (p.status ≠ PrescriptionStatus.active ∨ p.repeats = 0) := by
  simp [hact, hrep]

lemma addToCart_found_eq (p : Prescription) (cart : List CartItem)
    (hact : p.status = PrescriptionStatus.active) (hrep : p.repeats ≠ 0)
    (hsome : (cart.find? (fun item => item.prescription.id == p.id)).isSome) :
    addToCart p cart =
      (cart.map (fun item =>
        if item.prescription.id = p.id then
          { item with quantitySelected := item.quantitySelected + p.quantity }
        else item), AddToCartResult.updated) := by
  obtain ⟨w, hw⟩ := Option.isSome_iff_exists.mp hsome
  unfold addToCart
  rw [if_neg (addToCart_guard_false hact hrep), hw]

lemma addToCart_notFound_eq (p : Prescription) (cart : List CartItem)
    (hact : p.status = PrescriptionStatus.active) (hrep : p.repeats ≠ 0)
    (hnone : cart.find? (fun item => item.prescription.id == p.id) = none) :
    addToCart p cart =
      (cart ++ [{ prescription := p, quantitySelected := p.quantity }],
        AddToCartResult.added) := by
  unfold addToCart
  rw [if_neg (addToCart_guard_false hact hrep), hnone]

/-! ### Sample data for witnesses and counterexamples -/

/-- A concrete order in the initial state, shaped exactly as checkout creates
orders. -/
def sampleOrder : Order :=
  { id := "MOCA-1700000000000"
    patientEmail := "pat@example.com"
    items := []
    subtotal := 0
    shippingFee := 33.00
    total := 33.00
    status := .awaiting_payment
    createdAt := 1700000000000
    paymentMethod := "Power Board"
    shippingAddress := "Mock Address"
    trackingNumber := none }

/-- A concrete order in the `processing` state. -/
def sampleProcessingOrder : Order :=
  { sampleOrder with id := "MOCA-1700000000001", status := .processing }

/-- Two distinct orders for the same patient sharing one creation timestamp,
the second appended after the first. -/
def tieOrderA : Order := { sampleOrder with id := "MOCA-200", createdAt := 200 }

/-- See `tieOrderA`. -/
def tieOrderB : Order := { sampleOrder with id := "MOCA-201", createdAt := 200 }

/-- A store whose collection holds only `sampleOrder`. -/
def missStore : Store :=
  { allOrders := some [sampleOrder], cartItems := none, currentOrder := none }

/-! ### Claim theorems -/

/-- **C1**: order status only ever moves forward through
`awaiting_payment → processing → shipped`. The admin dashboard exposes
`markAsProcessing` only for orders in `awaiting_payment` and `markAsShipped`
only for orders in `processing`; an order already `shipped` offers no
transition (calling `advanceToShipped` again is rejected). Consequently,
with pairwise-distinct order ids, every admin interaction raises each
order's status rank by at most one, and no sequence of interactions ever
decreases it. -/
theorem order_status_forward_only :
    (∀ (o : Order) (orderId : String),
        getOrderActions o = some (AdminAction.toProcessing orderId) →
        o.status = OrderStatus.awaiting_payment ∧ orderId = o.id) ∧
    (∀ (o : Order) (orderId : String),
        getOrderActions o = some (AdminAction.toShipped orderId) →
        o.status = OrderStatus.processing ∧ orderId = o.id) ∧
    (∀ o : Order, o.status = OrderStatus.shipped → getOrderActions o = none) ∧
    (∀ (os os' : List Order), (os.map Order.id).Nodup → AdminStep os os' →
        ∀ (i : Nat) (h1 : i < os.length) (h2 : i < os'.length),
          statusRank (os.get ⟨i, h1⟩).status ≤ statusRank (os'.get ⟨i, h2⟩).status ∧
          statusRank (os'.get ⟨i, h2⟩).status ≤ statusRank (os.get ⟨i, h1⟩).status + 1) ∧
    (∀ (os os' : List Order), (os.map Order.id).Nodup →
        Relation.ReflTransGen AdminStep os os' →
        ∀ (i : Nat) (h1 : i < os.length) (h2 : i < os'.length),
          statusRank (os.get ⟨i, h1⟩).status ≤ statusRank (os'.get ⟨i, h2⟩).status) := by
  refine ⟨?_, ?_, ?_, ?_, ?_⟩
  · intro o orderId h
    rcases getOrderActions_cases h with ⟨hs, he⟩ | ⟨hs, he⟩
    · cases he
      exact ⟨hs, rfl⟩
    · cases he
  · intro o orderId h
    rcases getOrderActions_cases h with ⟨hs, he⟩ | ⟨hs, he⟩
    · cases he
    · cases he
      exact ⟨hs, rfl⟩
  · intro o h
    unfold getOrderActions
    rw [h]
  · intro os os' hnd hstep i h1 h2
    exact adminStep_rank hnd hstep i h1 h2
  · intro os os' hnd h i h1 h2
    exact (adminReachable_rank hnd h).2 i h1 h2

/-- Witness for C1: one concrete legal click, advancing `sampleOrder` from
`awaiting_payment`, moves its rank forward by exactly one. -/
theorem order_status_forward_only_witness :
    statusRank (([sampleOrder].get ⟨0, by simp⟩).status) ≤
      statusRank ((markAsProcessing "MOCA-1700000000000" [sampleOrder]).get
        ⟨0, by simp [markAsProcessing]⟩).status ∧
    statusRank ((markAsProcessing "MOCA-1700000000000" [sampleOrder]).get
        ⟨0, by simp [markAsProcessing]⟩).status ≤
      statusRank (([sampleOrder].get ⟨0, by simp⟩).status) + 1 := by
  have hstep : AdminStep [sampleOrder]
      (applyAction 0 (AdminAction.toProcessing "MOCA-1700000000000") [sampleOrder]) :=
    AdminStep.click [sampleOrder] sampleOrder
      (AdminAction.toProcessing "MOCA-1700000000000") 0 (by simp) rfl
  exact order_status_forward_only.2.2.2.1 [sampleOrder]
    (applyAction 0 (AdminAction.toProcessing "MOCA-1700000000000") [sampleOrder])
    (by decide) hstep 0 (by decide) (by simp [applyAction, markAsProcessing])

/-- **C2**: `total = subtotal + shippingFee` holds as checkout creates every
order (with the flat fee 33.00), and both admin transitions leave the
monetary fields `subtotal`, `shippingFee` and `total` of every order
untouched, so the equation is preserved by every status transition. -/
theorem order_monetary_invariant :
    (∀ (now : Int) (userEmail : String) (cartItems : List CartItem),
        (checkoutOrder now userEmail cartItems).shippingFee = 33.00 ∧
        (checkoutOrder now userEmail cartItems).subtotal = cartSubtotal cartItems ∧
        (checkoutOrder now userEmail cartItems).total =
          (checkoutOrder now userEmail cartItems).subtotal +
            (checkoutOrder now userEmail cartItems).shippingFee) ∧
    (∀ (orderId : String) (os : List Order) (i : Nat) (h1 : i < os.length)
        (h2 : i < (markAsProcessing orderId os).length),
        ((markAsProcessing orderId os).get ⟨i, h2⟩).subtotal = (os.get ⟨i, h1⟩).subtotal ∧
        ((markAsProcessing orderId os).get ⟨i, h2⟩).shippingFee = (os.get ⟨i, h1⟩).shippingFee ∧
        ((markAsProcessing orderId os).get ⟨i, h2⟩).total = (os.get ⟨i, h1⟩).total) ∧
    (∀ (orderId tn : String) (os : List Order) (i : Nat) (h1 : i < os.length)
        (h2 : i < (markAsShipped orderId tn os).length),
        ((markAsShipped orderId tn os).get ⟨i, h2⟩).subtotal = (os.get ⟨i, h1⟩).subtotal ∧
        ((markAsShipped orderId tn os).get ⟨i, h2⟩).shippingFee = (os.get ⟨i, h1⟩).shippingFee ∧
        ((markAsShipped orderId tn os).get ⟨i, h2⟩).total = (os.get ⟨i, h1⟩).total) ∧
    (∀ (orderId : String) (os : List Order),
        (∀ o ∈ os, o.total = o.subtotal + o.shippingFee) →
        ∀ o ∈ markAsProcessing orderId os, o.total = o.subtotal + o.shippingFee) ∧
    (∀ (orderId tn : String) (os : List Order),
        (∀ o ∈ os, o.total = o.subtotal + o.shippingFee) →
        ∀ o ∈ markAsShipped orderId tn os, o.total = o.subtotal + o.shippingFee) := by
  refine ⟨?_, ?_, ?_, ?_, ?_⟩
  · intro now userEmail cartItems
    exact ⟨rfl, rfl, rfl⟩
  · intro orderId os i h1 h2
    rw [markAsProcessing_get orderId os i h1 h2]
    by_cases h : (os.get ⟨i, h1⟩).id = orderId
    · rw [if_pos h]
      exact ⟨rfl, rfl, rfl⟩
    · rw [if_neg h]
      exact ⟨rfl, rfl, rfl⟩
  · intro orderId tn os i h1 h2
    rw [markAsShipped_get orderId tn os i h1 h2]
    by_cases h : (os.get ⟨i, h1⟩).id = orderId
    · rw [if_pos h]
      exact ⟨rfl, rfl, rfl⟩
    · rw [if_neg h]
      exact ⟨rfl, rfl, rfl⟩
  · intro orderId os hinv o ho
    rcases List.mem_map.mp ho with ⟨x, hx, rfl⟩
    by_cases h : x.id = orderId
    · simp only [h, if_pos]
      exact hinv x hx
    · simp only [if_neg h]
      exact hinv x hx
  · intro orderId tn os hinv o ho
    rcases List.mem_map.mp ho with ⟨x, hx, rfl⟩
    by_cases h : x.id = orderId
    · simp only [h, if_pos]
      exact hinv x hx
    · simp only [if_neg h]
      exact hinv x hx

/-- Witness for C2: advancing `sampleOrder` to `processing` keeps its
`total` field. -/
theorem order_monetary_invariant_witness :
    ((markAsProcessing "MOCA-1700000000000" [sampleOrder]).get
        ⟨0, by simp [markAsProcessing]⟩).total = ([sampleOrder].get ⟨0, by simp⟩).total :=
  (order_monetary_invariant.2.1 "MOCA-1700000000000" [sampleOrder] 0 (by simp)
    (by simp [markAsProcessing])).2.2

/-- **C3**: invoking `markAsShipped` on an order present in the collection
leaves that order with status `shipped` and, in the same single update, a
non-null tracking number of the form `ST` followed by exactly 8 decimal
digits, the digits being those of the random value drawn from
`[10000000, 99999999]`. -/
theorem markAsShipped_tracking_number (orderId : String) (os : List Order)
    (randomDigits : Nat) (hr1 : 10000000 ≤ randomDigits) (hr2 : randomDigits ≤ 99999999)
    (i : Nat) (h1 : i < os.length) (hid : (os.get ⟨i, h1⟩).id = orderId)
    (h2 : i < (markAsShipped orderId (generateTrackingNumber randomDigits) os).length) :
    ((markAsShipped orderId (generateTrackingNumber randomDigits) os).get ⟨i, h2⟩).status =
        OrderStatus.shipped ∧
    ((markAsShipped orderId (generateTrackingNumber randomDigits) os).get
        ⟨i, h2⟩).trackingNumber = some (generateTrackingNumber randomDigits) ∧
    ∃ ds : List Char, (generateTrackingNumber randomDigits).data = 'S' :: 'T' :: ds ∧
      ds.length = 8 ∧ ∀ c ∈ ds, c.isDigit = true := by
  rw [markAsShipped_get orderId (generateTrackingNumber randomDigits) os i h1 h2,
    if_pos hid]
  exact ⟨rfl, rfl, generateTrackingNumber_format randomDigits hr1 hr2⟩

/-- Witness for C3: shipping `sampleProcessingOrder` with random value
12345678 sets status `shipped` and tracking number `ST12345678`. -/
theorem markAsShipped_tracking_number_witness :
    ((markAsShipped "MOCA-1700000000001" (generateTrackingNumber 12345678)
        [sampleProcessingOrder]).get ⟨0, by simp [markAsShipped]⟩).status =
      OrderStatus.shipped ∧
    ((markAsShipped "MOCA-1700000000001" (generateTrackingNumber 12345678)
        [sampleProcessingOrder]).get ⟨0, by simp [markAsShipped]⟩).trackingNumber =
      some (generateTrackingNumber 12345678) ∧
    ∃ ds : List Char, (generateTrackingNumber 12345678).data = 'S' :: 'T' :: ds ∧
      ds.length = 8 ∧ ∀ c ∈ ds, c.isDigit = true :=
  markAsShipped_tracking_number "MOCA-1700000000001" [sampleProcessingOrder] 12345678
    (by norm_num) (by norm_num) 0 (by simp) rfl (by simp [markAsShipped])

/-- Counterexample to C4's tie-break direction: two distinct orders for the
same patient share a creation timestamp; the one appended *earlier*
(`tieOrderA`) comes first in the patient view, not the one appended later as
the claim states. -/
theorem patient_view_tie_counterexample :
    tieOrderA.patientEmail = "pat@example.com" ∧
    tieOrderB.patientEmail = "pat@example.com" ∧
    tieOrderA.createdAt = tieOrderB.createdAt ∧
    loadPatientOrders "pat@example.com" [tieOrderA, tieOrderB] =
      [tieOrderA, tieOrderB] ∧
    loadPatientOrders "pat@example.com" [tieOrderA, tieOrderB] ≠
      [tieOrderB, tieOrderA] := by
  have hid : tieOrderA.id ≠ tieOrderB.id := by decide
  refine ⟨rfl, rfl, rfl, rfl, ?_⟩
  intro h
  rw [show loadPatientOrders "pat@example.com" [tieOrderA, tieOrderB] =
    [tieOrderA, tieOrderB] from rfl] at h
  injection h with h1 h2
  exact hid (congrArg Order.id h1)

/-- **C4** (amended): the patient order view returns exactly the orders whose
`patientEmail` equals the given email (a permutation of the email filter),
sorted by creation timestamp descending; ties on equal timestamps keep the
collection's insertion order (the order appended earlier comes first, as a
stable sort preserves the relative order of equal keys). -/
theorem loadPatientOrders_spec (userEmail : String) (os : List Order) :
    List.Perm (loadPatientOrders userEmail os)
      (os.filter (fun o => o.patientEmail == userEmail)) ∧
    (loadPatientOrders userEmail os).Pairwise
      (fun a b => b.createdAt ≤ a.createdAt) ∧
    ∀ t : Int,
      (loadPatientOrders userEmail os).filter (fun o => o.createdAt == t) =
        (os.filter (fun o => o.patientEmail == userEmail)).filter
          (fun o => o.createdAt == t) :=
  ⟨sortByDateDesc_perm _, sortByDateDesc_pairwise _,
    fun t => sortByDateDesc_filter_time _ t⟩

/-- **C5**: adding a prescription with no repeats left or a non-active status
leaves the cart exactly unchanged and signals rejection (the source shows a
blocking alert and returns; no exception is raised). -/
theorem addToCart_rejects_ineligible (p : Prescription) (cart : List CartItem)
    (h : p.repeats = 0 ∨ p.status ≠ PrescriptionStatus.active) :
    addToCart p cart = (cart, AddToCartResult.rejected) := by
  unfold addToCart
  rw [if_pos (Or.symm h)]

/-- Witness for C5: `rx003` (status `used`, 0 repeats) is rejected and the
cart keeps its single line. -/
theorem addToCart_rejects_ineligible_witness :
    addToCart rx003 [{ prescription := rx001, quantitySelected := 20 }] =
      ([{ prescription := rx001, quantitySelected := 20 }], AddToCartResult.rejected) :=
  addToCart_rejects_ineligible rx003
    [{ prescription := rx001, quantitySelected := 20 }] (Or.inl rfl)

/-- **C6**: for an eligible prescription (active, repeats > 0): when some cart
line already carries the prescription's id, that line's selected quantity
grows by exactly the prescription's full quantity, no line is added, and all
lines with a different id are untouched; otherwise exactly one new line with
the full quantity is appended after the unchanged existing lines. -/
theorem addToCart_eligible_spec (p : Prescription) (cart : List CartItem)
    (hact : p.status = PrescriptionStatus.active) (hrep : p.repeats ≠ 0) :
    ((∃ item ∈ cart, item.prescription.id = p.id) →
      (addToCart p cart).2 = AddToCartResult.updated ∧
      (addToCart p cart).1.length = cart.length ∧
      ∀ (i : Nat) (h1 : i < cart.length) (h2 : i < (addToCart p cart).1.length),
        ((cart.get ⟨i, h1⟩).prescription.id = p.id →
          (addToCart p cart).1.get ⟨i, h2⟩ =
            { cart.get ⟨i, h1⟩ with
              quantitySelected := (cart.get ⟨i, h1⟩).quantitySelected + p.quantity }) ∧
        ((cart.get ⟨i, h1⟩).prescription.id ≠ p.id →
          (addToCart p cart).1.get ⟨i, h2⟩ = cart.get ⟨i, h1⟩)) ∧
    ((∀ item ∈ cart, item.prescription.id ≠ p.id) →
      addToCart p cart =
        (cart ++ [{ prescription := p, quantitySelected := p.quantity }],
          AddToCartResult.added)) := by
  constructor
  · rintro ⟨item, him, hid⟩
    have hsome : (cart.find? (fun it => it.prescription.id == p.id)).isSome :=
      List.find?_isSome.mpr ⟨item, him, by simp [beq_iff_eq, hid]⟩
    rw [addToCart_found_eq p cart hact hrep hsome]
    refine ⟨rfl, by simp, ?_⟩
    intro i h1 h2
    constructor
    · intro hidq
      simp only [List.get_eq_getElem] at hidq ⊢
      simp only [List.getElem_map]
      rw [if_pos hidq]
    · intro hidq
      simp only [List.get_eq_getElem] at hidq ⊢
      simp only [List.getElem_map]
      rw [if_neg hidq]
  · intro hnone
    have hfind : cart.find? (fun it => it.prescription.id == p.id) = none := by
      rw [List.find?_eq_none]
      intro it hit
      simp [beq_iff_eq, hnone it hit]
    exact addToCart_notFound_eq p cart hact hrep hfind

/-- Witness for C6: adding eligible `rx001` to the empty cart appends a
single line holding its full quantity. -/
theorem addToCart_eligible_spec_witness :
    addToCart rx001 [] =
      ([{ prescription := rx001, quantitySelected := rx001.quantity }],
        AddToCartResult.added) :=
  (addToCart_eligible_spec rx001 [] rfl (by decide)).2 (by simp)

/-- **C7**: `markAsProcessing` for an id matching no stored order is a silent
no-op success: the persisted collection is element-for-element the one read,
the store is unchanged, and the success alert (not an error) is reported. -/
theorem markAsProcessing_missing_id_noop (orderId : String) (s : Store)
    (os : List Order) (hs : s.allOrders = some os)
    (habs : ∀ o ∈ os, o.id ≠ orderId) :
    markAsProcessingStore orderId s = (s, true) := by
  unfold markAsProcessingStore
  rw [hs]
  show ({ s with allOrders := some (markAsProcessing orderId os) }, true) = (s, true)
  rw [markAsProcessing_noop orderId os habs, ← hs]

/-- Witness for C7: processing the absent id `MOCA-9999` leaves `missStore`
untouched and still signals success. -/
theorem markAsProcessing_missing_id_noop_witness :
    markAsProcessingStore "MOCA-9999" missStore = (missStore, true) :=
  markAsProcessing_missing_id_noop "MOCA-9999" missStore [sampleOrder] rfl (by decide)

/-- **C8**: the end-to-end scenario on the mock data: adding `rx-001`
(price 12.50, quantity 20) to an empty cart yields cart total 250.00, and
checking that cart out produces an order with total 283.00 (shipping fee
33.00), status `awaiting_payment` and no tracking number. -/
theorem end_to_end_rx001 :
    (addToCart rx001 []).2 = AddToCartResult.added ∧
    cartTotal (addToCart rx001 []).1 = 250.00 ∧
    (checkoutOrder 1700000000000 "pat@example.com" (addToCart rx001 []).1).total =
      283.00 ∧
    (checkoutOrder 1700000000000 "pat@example.com" (addToCart rx001 []).1).status =
      OrderStatus.awaiting_payment ∧
    (checkoutOrder 1700000000000 "pat@example.com" (addToCart rx001 []).1).trackingNumber =
      none := by
  refine ⟨rfl, ?_, ?_, rfl, rfl⟩
  · show cartTotal [{ prescription := rx001, quantitySelected := rx001.quantity }] = 250.00
    norm_num [cartTotal, rx001]
  · show cartSubtotal [{ prescription := rx001, quantitySelected := rx001.quantity }] +
      shippingFee = 283.00
    norm_num [cartSubtotal, shippingFee, rx001]

/-- **C9** (frame property): both admin transitions map over the stored
collection, preserving its length and element order; every order whose id
differs from the argument is returned entirely unchanged; for a matching
order, `markAsProcessing` changes only the `status` field and
`markAsShipped` changes only `status` and `trackingNumber`, leaving every
other field as it was. -/
theorem transition_frame (orderId tn : String) (os : List Order) :
    (markAsProcessing orderId os).length = os.length ∧
    (markAsShipped orderId tn os).length = os.length ∧
    ∀ (i : Nat) (h1 : i < os.length) (h2 : i < (markAsProcessing orderId os).length)
      (h3 : i < (markAsShipped orderId tn os).length),
      ((os.get ⟨i, h1⟩).id ≠ orderId →
        (markAsProcessing orderId os).get ⟨i, h2⟩ = os.get ⟨i, h1⟩ ∧
        (markAsShipped orderId tn os).get ⟨i, h3⟩ = os.get ⟨i, h1⟩) ∧
      ((os.get ⟨i, h1⟩).id = orderId →
        (markAsProcessing orderId os).get ⟨i, h2⟩ =
          { os.get ⟨i, h1⟩ with status := OrderStatus.processing } ∧
        (markAsShipped orderId tn os).get ⟨i, h3⟩ =
          { os.get ⟨i, h1⟩ with
            status := OrderStatus.shipped
            trackingNumber := some tn }) := by
  refine ⟨markAsProcessing_length orderId os, markAsShipped_length orderId tn os, ?_⟩
  intro i h1 h2 h3
  constructor
  · intro h
    rw [markAsProcessing_get orderId os i h1 h2, if_neg h,
      markAsShipped_get orderId tn os i h1 h3, if_neg h]
    exact ⟨rfl, rfl⟩
  · intro h
    rw [markAsProcessing_get orderId os i h1 h2, if_pos h,
      markAsShipped_get orderId tn os i h1 h3, if_pos h]
    exact ⟨rfl, rfl⟩

/-- Witness for C9: advancing `sampleOrder` to `processing` changes only its
status field. -/
theorem transition_frame_witness :
    (markAsProcessing "MOCA-1700000000000" [sampleOrder]).get
        ⟨0, by simp [markAsProcessing]⟩ =
      { sampleOrder with status := OrderStatus.processing } :=
  (((transition_frame "MOCA-1700000000000" "ST12345678" [sampleOrder]).2.2 0
    (by decide) (by simp [markAsProcessing]) (by simp [markAsShipped])).2 rfl).1

/-- **C10**: checkout's payment handler never re-checks cart emptiness: run
on an empty cart item list it still appends an order with no items,
subtotal 0, total 33.00 (the shipping fee alone), status `awaiting_payment`
and no tracking number, and clears the stored cart. -/
theorem handlePayment_empty_cart (now : Int) (userEmail : String) (s : Store) :
    (handlePayment now userEmail [] s).allOrders =
      some (s.allOrders.getD [] ++ [checkoutOrder now userEmail []]) ∧
    (checkoutOrder now userEmail []).items = [] ∧
    (checkoutOrder now userEmail []).subtotal = 0 ∧
    (checkoutOrder now userEmail []).total = 33.00 ∧
    (checkoutOrder now userEmail []).status = OrderStatus.awaiting_payment ∧
    (checkoutOrder now userEmail []).trackingNumber = none ∧
    (handlePayment now userEmail [] s).cartItems = none := by
  refine ⟨rfl, rfl, rfl, ?_, rfl, rfl, rfl⟩
  show cartSubtotal [] + shippingFee = 33.00
  norm_num [cartSubtotal, shippingFee]

end Moca
